import Mathlib

/-!
Verification of the reactotron debugging-bridge fragment: the CLI entry
point (`src/lib/reactotron-core-server/src/cli.ts`) and the CustomCommands
presentation component (argument-map reducer, initial argument map, render
keys, search filtering).  JavaScript strings are modelled as Lean `String`
(with explicit char-list operations where the JS runtime primitive matters),
JS numbers appearing as ports or exit codes as `Int`, and JS objects used as
string-keyed maps as insertion-ordered association lists.
-/

namespace Reactotron

/-! ## JavaScript primitives -/

/-- Model of the JS `||` operator on an optional string with a string
default: `none` and the empty string (the only falsy strings) give the
default. -/
def jsOr (v : Option String) (d : String) : String :=
  match v with
  | some s => if s = "" then d else s
  | none => d

/-- Lowercasing of a char list, modelling `String.prototype.toLowerCase`
character by character. -/
def jsLowerData (l : List Char) : List Char := l.map Char.toLower

/-- Lowercasing of a string, modelling `String.prototype.toLowerCase`. -/
def jsToLower (s : String) : String := ⟨jsLowerData s.data⟩

/-- Accumulate the value of a maximal leading run of decimal digits,
as `parseInt` does after the sign. -/
def parseDigitsAux : List Char → Nat → Nat
  | [], acc => acc
  | c :: cs, acc =>
    if c.isDigit then parseDigitsAux cs (acc * 10 + (c.toNat - 48)) else acc

/-- Model of JS `parseInt(s, 10)`: skip leading whitespace, read an
optional sign, then a maximal run of decimal digits; `none` models `NaN`
(no digit found). -/
def jsParseInt (s : String) : Option Int :=
  match s.data.dropWhile Char.isWhitespace with
  | [] => none
  | '-' :: rest =>
    match rest with
    | c :: _ => if c.isDigit then some (-(parseDigitsAux rest 0 : Int)) else none
    | [] => none
  | '+' :: rest =>
    match rest with
    | c :: _ => if c.isDigit then some ((parseDigitsAux rest 0 : Int)) else none
    | [] => none
  | c :: cs => if c.isDigit then some ((parseDigitsAux (c :: cs) 0 : Int)) else none

/-! ## CLI argument parsing (`cli.ts`, `parseArgs`) -/

/-- The `WssServerOptions` record the CLI accumulates flag by flag; every
field starts unset, mirroring the empty `wssOptions` object. -/
structure WssServerOptions where
  pathToPfx : Option String := none
  pathToCert : Option String := none
  pathToKey : Option String := none
  passphrase : Option String := none
deriving DecidableEq

/-- A `console.error` message followed by `process.exit(code)` during
argument parsing. -/
structure CliError where
  message : String
  exitCode : Int
deriving DecidableEq

/-- The result record of `parseArgs`: port (default 9090), the optional
wss options, and the help flag. -/
structure ParsedArgs where
  port : Int
  wss : Option WssServerOptions
  help : Bool
deriving DecidableEq

/-- Whether any wss option was provided, modelling
`Object.keys(wssOptions).length > 0` (fields are only ever assigned
string values, never deleted). -/
def hasAnyWss (w : WssServerOptions) : Bool :=
  w.pathToPfx.isSome || w.pathToCert.isSome || w.pathToKey.isSome || w.passphrase.isSome

/-- The argument-scanning loop of `parseArgs`: walks the argument list,
consuming a lookahead value for the options that take one, accumulating
the port, the help flag and the wss options, and stopping with a
`CliError` where the source calls `console.error` + `process.exit(1)`. -/
def parseArgsGo : List String → Int → Bool → WssServerOptions →
    Except CliError (Int × Bool × WssServerOptions)
  | [], port, help, w => .ok (port, help, w)
  | arg :: rest, port, help, w =>
    if arg = "--help" || arg = "-h" then
      parseArgsGo rest port true w
    else if arg = "--port" || arg = "-p" then
      match rest with
      | [] => .error ⟨"--port requires a value", 1⟩
      | v :: rest2 =>
        match jsParseInt v with
        | none => .error ⟨"Invalid port: " ++ v, 1⟩
        | some p => parseArgsGo rest2 p help w
    else if arg = "--wss-pfx" then
      match rest with
      | [] => .error ⟨"--wss-pfx requires a path", 1⟩
      | v :: rest2 => parseArgsGo rest2 port help { w with pathToPfx := some v }
    else if arg = "--wss-cert" then
      match rest with
      | [] => .error ⟨"--wss-cert requires a path", 1⟩
      | v :: rest2 => parseArgsGo rest2 port help { w with pathToCert := some v }
    else if arg = "--wss-key" then
      match rest with
      | [] => .error ⟨"--wss-key requires a path", 1⟩
      | v :: rest2 => parseArgsGo rest2 port help { w with pathToKey := some v }
    else if arg = "--wss-passphrase" then
      match rest with
      | [] => .error ⟨"--wss-passphrase requires a value", 1⟩
      | v :: rest2 => parseArgsGo rest2 port help { w with passphrase := some v }
    else .error ⟨"Unknown argument: " ++ arg, 1⟩

/-- `parseArgs` from `cli.ts`: run the scanning loop from the defaults
(`port 9090`, `help false`, empty wss options) and attach the wss record
only when at least one wss option was provided. -/
def parseArgs (args : List String) : Except CliError ParsedArgs :=
  match parseArgsGo args 9090 false {} with
  | .error e => .error e
  | .ok (port, help, w) =>
    .ok { port := port, help := help, wss := if hasAnyWss w then some w else none }

/-! ## CLI run wiring (`cli.ts`, `run`) -/

/-- The server lifecycle events the CLI subscribes to, with the payloads
its handlers read (`conn.name`/`conn.address` for connections, `cmd.type`
for commands). -/
inductive ServerEvent where
  | start
  | portUnavailable (port : Int)
  | connect
  | connectionEstablished (name : Option String) (address : String)
  | disconnect (name : Option String)
  | command (cmdType : String)
  | stop
deriving DecidableEq

/-- What one CLI event handler does: lines written to stdout, lines
written to stderr, and the `process.exit` code if it exits. -/
structure HandlerResult where
  logs : List String
  errorLogs : List String
  exitWith : Option Int
deriving DecidableEq

/-- The seven event handlers `run` registers, translated one `server.on`
call at a time; `port` and `hasWss` are the configuration captured by the
closures. -/
def cliEventHandler (port : Int) (hasWss : Bool) : ServerEvent → HandlerResult
  | .start =>
    { logs := ["✓ Reactotron server listening on port " ++ toString port] ++
        (if hasWss then ["✓ TLS/WSS enabled"] else []),
      errorLogs := [], exitWith := none }
  | .portUnavailable p =>
    { logs := [], errorLogs := ["✗ Port " ++ toString p ++ " is already in use"], exitWith := some 1 }
  | .connect =>
    { logs := ["→ Client connecting..."], errorLogs := [], exitWith := none }
  | .connectionEstablished name address =>
    let who := jsOr name "Unknown"
    { logs := ["✓ Connection established: " ++ who ++ " (" ++ address ++ ")"],
      errorLogs := [], exitWith := none }
  | .disconnect name =>
    let who := jsOr name "Unknown"
    { logs := ["✗ Client disconnected: " ++ who], errorLogs := [], exitWith := none }
  | .command cmdType =>
    { logs := if cmdType ≠ "client.intro" then ["  " ++ cmdType] else [],
      errorLogs := [], exitWith := none }
  | .stop =>
    { logs := ["✓ Reactotron server stopped"], errorLogs := [], exitWith := none }

/-- The event names `run` passes to `server.on`, in registration order. -/
def cliRegisteredEvents : List String :=
  ["start", "portUnavailable", "connect", "connectionEstablished", "disconnect",
   "command", "stop"]

/-- The spec's process-lifecycle event set (§6), under the implementation
names the claim maps them to. -/
def specLifecycleEventNames : List String :=
  ["start", "portUnavailable", "connect", "connectionEstablished", "disconnect",
   "command", "stop"]

/-- The `.catch` handler at the CLI entry: logs the startup error to
stderr and exits 1.  Modelled from the spec: TLS-configuration failures
are fatal at startup and reach this handler as a raised error, since
`createServer` itself is outside the studied fragment. -/
def runCatchHandler (message : String) : HandlerResult :=
  { logs := [], errorLogs := ["Error starting server: " ++ message], exitWith := some 1 }

/-- The options record `run` hands to `createServer`. -/
structure ServerOptions where
  port : Int
  wss : Option WssServerOptions
deriving DecidableEq

/-- How far `run` gets before the server exists: a parse failure exits
with the parser's code, a parsed help flag prints usage and exits 0, and
otherwise `createServer(options)` + `server.start()` are reached. -/
inductive RunResult where
  | parseFailure (message : String) (code : Int)
  | helpShown (code : Int)
  | serverStarted (options : ServerOptions)
deriving DecidableEq

/-- The startup phase of `run` in `cli.ts`: parse `process.argv.slice(2)`,
print help and exit 0 when the help flag was parsed, else build the
`ServerOptions` and start the server. -/
def runStartup (args : List String) : RunResult :=
  match parseArgs args with
  | .error e => .parseFailure e.message e.exitCode
  | .ok r =>
    if r.help then .helpShown 0
    else .serverStarted { port := r.port, wss := r.wss }

/-! ## CustomCommands presentation component (`src/unnamed/part_000`) -/

/-- A declared command argument.  Modelled from the spec (§3, the
`reactotron-core-ui` types are outside the fragment): a name plus an
optional type hint. -/
structure Arg where
  name : String
  typeHint : Option String := none
deriving DecidableEq

/-- A registered custom command as the presentation layer receives it.
Modelled from the spec (§3) where the `reactotron-core-ui` type is
outside the fragment: `id` is the registry-assigned numeric identifier,
unique within the declaring connection; `title`, `description` and `args`
are optional. -/
structure CustomCommand where
  clientId : String
  id : Nat
  command : String
  title : Option String := none
  description : Option String := none
  args : Option (List Arg) := none
deriving DecidableEq

/-- JS object assignment `m[k] = v` on a string-keyed object modelled as
an insertion-ordered association list: an existing key keeps its position
and gets the new value, a new key is appended. -/
def objSet : List (String × String) → String → String → List (String × String)
  | [], k, v => [(k, v)]
  | (k2, v2) :: rest, k, v =>
    if k2 = k then (k, v) :: rest else (k2, v2) :: objSet rest k v

/-- JS object property read `m[k]` on the same model. -/
def objGet : List (String × String) → String → Option String
  | [], _ => none
  | (k2, v2) :: rest, k => if k2 = k then some v2 else objGet rest k

/-- The payload of an `UPDATE_ARG` action dispatched by the argument
inputs. -/
structure ActionPayload where
  argName : String
  value : String
deriving DecidableEq

/-- A dispatched action: a type tag plus the payload the `UPDATE_ARG`
branch reads (ignored by every other branch). -/
structure Action where
  actionType : String
  payload : ActionPayload
deriving DecidableEq

/-- `customCommandItemReducer`: on `UPDATE_ARG` it returns a copy of the
state (immer `produce`) with `payload.argName` set to `payload.value`;
every other action type returns the state unchanged. -/
def customCommandItemReducer (state : List (String × String)) (action : Action) :
    List (String × String) :=
  if action.actionType = "UPDATE_ARG" then
    objSet state action.payload.argName action.payload.value
  else
    state

/-- The `useReducer` initializer of `CustomCommandItem`: a falsy `args`
gives the empty object, otherwise every declared argument name is bound
to the empty string. -/
def initArgMap (args : Option (List Arg)) : List (String × String) :=
  match args with
  | none => []
  | some l => l.foldl (fun m a => objSet m a.name "") []

/-- Decimal digit list of a natural number, structurally recursive on a
fuel bound so that it evaluates inside the kernel; `natDigits` instantiates
the fuel with the number itself. -/
def natDigitsAux : Nat → Nat → List Char
  | 0, _ => []
  | fuel + 1, n =>
    if n = 0 then [] else natDigitsAux fuel (n / 10) ++ [Nat.digitChar (n % 10)]

/-- Decimal digit list of a natural number (empty for 0). -/
def natDigits (n : Nat) : List Char := natDigitsAux n n

/-- Decimal rendering of a natural number.  Modelled from the spec: the
JS template literal `${cc.id}` renders the numeric command id in
decimal. -/
def natToString (n : Nat) : String :=
  if n = 0 then "0" else ⟨natDigits n⟩

/-- The React render key of a listed command:
`` key={`${cc.clientId}-${cc.id}`} ``. -/
def renderKey (cc : CustomCommand) : String :=
  cc.clientId ++ "-" ++ natToString cc.id

/-! ## Search filtering (`CustomCommands`) -/

/-- Whether `needle` is a leading run of `hay`. -/
def leadsWith : List Char → List Char → Bool
  | [], _ => true
  | _ :: _, [] => false
  | a :: ns, b :: hs => a = b && leadsWith ns hs

/-- Model of JS `hay.indexOf(needle)`: index of the first occurrence of
`needle` in `hay`, `-1` when there is none. -/
def listIndexOf (hay needle : List Char) : Int :=
  if leadsWith needle hay then 0
  else
    match hay with
    | [] => -1
    | _ :: t => let r := listIndexOf t needle; if r = -1 then -1 else r + 1

/-- JS `s.indexOf(sub)` on strings. -/
def strIndexOf (s sub : String) : Int := listIndexOf s.data sub.data

/-- Substring containment on char lists, the clean counterpart of
`indexOf(...) > -1`. -/
def occursIn : List Char → List Char → Bool
  | needle, [] => leadsWith needle []
  | needle, b :: t => leadsWith needle (b :: t) || occursIn needle t

/-- The filter predicate of `CustomCommands`, translated from the source:
the lowercased command, title (`cc.title || ""`) or description
(`cc.description || ""`) has `lowerSearch` at some index. -/
def commandMatchesSearch (lowerSearch : String) (cc : CustomCommand) : Bool :=
  strIndexOf (jsToLower cc.command) lowerSearch > -1
  || strIndexOf (jsToLower (jsOr cc.title "")) lowerSearch > -1
  || strIndexOf (jsToLower (jsOr cc.description "")) lowerSearch > -1

/-- `filteredCustomCommands`: for a non-empty search string, filter by
`commandMatchesSearch` of the lowercased search; for the empty search
string, the list unchanged. -/
def filteredCustomCommands (search : String) (customCommands : List CustomCommand) :
    List CustomCommand :=
  let lowerSearch := jsToLower search
  if search ≠ "" then customCommands.filter (commandMatchesSearch lowerSearch)
  else customCommands

/-- The spec-side reading of the filter: the search string occurs
case-insensitively in the command name, the title (empty when absent), or
the description (empty when absent). -/
def specMatches (search : String) (cc : CustomCommand) : Bool :=
  occursIn (jsLowerData search.data) (jsLowerData cc.command.data)
  || occursIn (jsLowerData search.data) (jsLowerData (cc.title.getD "").data)
  || occursIn (jsLowerData search.data) (jsLowerData (cc.description.getD "").data)

/-- The spec's three admissible TLS-configuration shapes (§6): absent, a
PFX bundle with optional passphrase, or a certificate path plus key path
pair. -/
def specTlsShape : Option WssServerOptions → Bool
  | none => true
  | some w =>
    (w.pathToPfx.isSome && w.pathToCert.isNone && w.pathToKey.isNone)
    || (w.pathToPfx.isNone && w.passphrase.isNone
        && w.pathToCert.isSome && w.pathToKey.isSome)

/-! ## Lemmas: the argument-map object model -/

theorem objGet_objSet_self (m : List (String × String)) (k v : String) :
    objGet (objSet m k v) k = some v := by
  induction m with
  | nil => simp [objSet, objGet]
  | cons p rest ih =>
    obtain ⟨k2, v2⟩ := p
    by_cases h : k2 = k
    · simp [objSet, objGet, h]
    · simp [objSet, objGet, h, ih]

theorem objGet_objSet_other (m : List (String × String)) (k v k2 : String)
    (h : k2 ≠ k) : objGet (objSet m k v) k2 = objGet m k2 := by
  have h' : ¬k = k2 := fun hh => h hh.symm
  induction m with
  | nil => simp [objSet, objGet, h']
  | cons p rest ih =>
    obtain ⟨k3, v3⟩ := p
    by_cases h3 : k3 = k
    · subst h3
      simp [objSet, objGet, h']
    · simp only [objSet, if_neg h3]
      by_cases h2 : k3 = k2 <;> simp [objGet, h2, ih]

theorem initArgMap_foldl (l : List Arg) (m : List (String × String)) (n : String) :
    objGet (l.foldl (fun m a => objSet m a.name "") m) n =
      if n ∈ l.map Arg.name then some "" else objGet m n := by
  induction l generalizing m with
  | nil => simp
  | cons a t ih =>
    rw [List.foldl_cons, ih]
    by_cases ht : n ∈ t.map Arg.name
    · simp [ht]
    · by_cases ha : n = a.name
      · simp [ht, ha, objGet_objSet_self]
      · simp [ht, ha, objGet_objSet_other _ _ _ _ ha]

/-! ## Lemmas: decimal rendering and render keys -/

/-- Digit value of a character produced by `Nat.digitChar` on a digit. -/
def charVal (c : Char) : Nat := c.toNat - 48

/-- Numeric value of a digit list, most significant first. -/
def digitsVal (l : List Char) : Nat :=
  l.foldl (fun acc c => acc * 10 + charVal c) 0

theorem charVal_digitChar (d : Nat) (h : d < 10) :
    charVal (Nat.digitChar d) = d := by
  interval_cases d <;> decide

theorem digitChar_ne_dash (d : Nat) (h : d < 10) : Nat.digitChar d ≠ '-' := by
  interval_cases d <;> decide

theorem digitsVal_append_digit (l : List Char) (c : Char) :
    digitsVal (l ++ [c]) = digitsVal l * 10 + charVal c := by
  simp [digitsVal, List.foldl_append]

theorem digitsVal_natDigitsAux (fuel n : Nat) (h : n ≤ fuel) :
    digitsVal (natDigitsAux fuel n) = n := by
  induction fuel generalizing n with
  | zero =>
    have : n = 0 := Nat.le_zero.mp h
    simp [this, natDigitsAux, digitsVal]
  | succ f ih =>
    by_cases h0 : n = 0
    · simp [h0, natDigitsAux, digitsVal]
    · have hdiv : n / 10 ≤ f := by
        have : n / 10 < n := Nat.div_lt_self (Nat.pos_of_ne_zero h0) (by omega)
        omega
      rw [natDigitsAux, if_neg h0, digitsVal_append_digit, ih _ hdiv,
        charVal_digitChar _ (Nat.mod_lt _ (by omega))]
      omega

theorem digitsVal_natDigits (n : Nat) : digitsVal (natDigits n) = n :=
  digitsVal_natDigitsAux n n (Nat.le_refl n)

theorem natDigitsAux_ne_dash (fuel n : Nat) (c : Char)
    (hc : c ∈ natDigitsAux fuel n) : c ≠ '-' := by
  induction fuel generalizing n with
  | zero => simp [natDigitsAux] at hc
  | succ f ih =>
    by_cases h0 : n = 0
    · simp [h0, natDigitsAux] at hc
    · rw [natDigitsAux, if_neg h0] at hc
      rcases List.mem_append.mp hc with h | h
      · exact ih _ h
      · rcases List.mem_singleton.mp h with rfl
        exact digitChar_ne_dash _ (Nat.mod_lt _ (by omega))

theorem natToString_ne_dash (n : Nat) (c : Char) (hc : c ∈ (natToString n).data) :
    c ≠ '-' := by
  by_cases h0 : n = 0
  · subst h0
    have h1 : c ∈ ['0'] := hc
    have h2 : c = '0' := by simpa using h1
    subst h2
    decide
  · rw [natToString, if_neg h0] at hc
    exact natDigitsAux_ne_dash n n c hc

theorem natToString_inj (a b : Nat) (h : natToString a = natToString b) : a = b := by
  have hd : (natToString a).data = (natToString b).data := by rw [h]
  have hzero : digitsVal ("0" : String).data = 0 := by decide
  by_cases ha : a = 0 <;> by_cases hb : b = 0
  · omega
  · rw [natToString, if_pos ha, natToString, if_neg hb] at hd
    have h2 : digitsVal ("0" : String).data = digitsVal (natDigits b) :=
      congrArg digitsVal hd
    rw [digitsVal_natDigits, hzero] at h2
    omega
  · rw [natToString, if_neg ha, natToString, if_pos hb] at hd
    have h2 : digitsVal (natDigits a) = digitsVal ("0" : String).data :=
      congrArg digitsVal hd
    rw [digitsVal_natDigits, hzero] at h2
    omega
  · rw [natToString, if_neg ha, natToString, if_neg hb] at hd
    have h2 : digitsVal (natDigits a) = digitsVal (natDigits b) :=
      congrArg digitsVal hd
    rwa [digitsVal_natDigits, digitsVal_natDigits] at h2

/-- Splitting a char list at a separator that occurs in neither tail is
unambiguous. -/
theorem append_dash_inj (a : List Char) : ∀ (b x y : List Char),
    '-' ∉ x → '-' ∉ y → a ++ '-' :: x = b ++ '-' :: y → a = b ∧ x = y := by
  induction a with
  | nil =>
    intro b x y hx hy h
    cases b with
    | nil => simpa using h
    | cons c bs =>
      simp only [List.nil_append, List.cons_append, List.cons.injEq] at h
      obtain ⟨rfl, h2⟩ := h
      exact absurd (h2 ▸ List.mem_append_right bs (List.mem_cons_self _ _)) hx
  | cons c as ih =>
    intro b x y hx hy h
    cases b with
    | nil =>
      simp only [List.cons_append, List.nil_append, List.cons.injEq] at h
      obtain ⟨rfl, h2⟩ := h
      exact absurd (h2.symm ▸ List.mem_append_right as (List.mem_cons_self _ _)) hy
    | cons c2 bs =>
      simp only [List.cons_append, List.cons.injEq] at h
      obtain ⟨rfl, h2⟩ := h
      obtain ⟨rfl, rfl⟩ := ih bs x y hx hy h2
      exact ⟨rfl, rfl⟩

theorem renderKey_inj (c1 c2 : CustomCommand)
    (h : renderKey c1 = renderKey c2) : c1.clientId = c2.clientId ∧ c1.id = c2.id := by
  have hd : c1.clientId.data ++ '-' :: (natToString c1.id).data
      = c2.clientId.data ++ '-' :: (natToString c2.id).data := by
    have h0 := congrArg String.data h
    simpa [renderKey, String.data_append, List.append_assoc] using h0
  obtain ⟨hc, hn⟩ := append_dash_inj _ _ _ _
    (fun hmem => natToString_ne_dash c1.id '-' hmem rfl)
    (fun hmem => natToString_ne_dash c2.id '-' hmem rfl) hd
  exact ⟨String.ext_iff.mpr hc, natToString_inj _ _ (String.ext_iff.mpr hn)⟩

/-! ## Lemmas: `indexOf` and substring containment -/

theorem listIndexOf_ge (hay needle : List Char) : -1 ≤ listIndexOf hay needle := by
  induction hay with
  | nil =>
    rw [listIndexOf]
    split <;> omega
  | cons b t ih =>
    rw [listIndexOf]
    split
    · omega
    · simp only
      split <;> omega

theorem listIndexOf_pos_iff (hay needle : List Char) :
    listIndexOf hay needle > -1 ↔ occursIn needle hay = true := by
  induction hay with
  | nil =>
    rw [listIndexOf, occursIn]
    split <;> simp_all
  | cons b t ih =>
    rw [listIndexOf, occursIn]
    split
    · simp_all
    · rename_i hlead
      simp only [Bool.or_eq_true, hlead, false_or]
      rw [← ih]
      have hge := listIndexOf_ge t needle
      show (if listIndexOf t needle = -1 then (-1 : Int)
        else listIndexOf t needle + 1) > -1 ↔ (false = true ∨ listIndexOf t needle > -1)
      split <;> rename_i hr
      · constructor
        · intro h0
          omega
        · intro h0
          rcases h0 with h0 | h0
          · simp at h0
          · omega
      · constructor
        · intro h0
          exact Or.inr (by omega)
        · intro h0
          omega

theorem strIndexOf_pos_iff (s sub : String) :
    strIndexOf s sub > -1 ↔ occursIn sub.data s.data = true := by
  rw [strIndexOf, listIndexOf_pos_iff]

theorem jsOr_none_getD (v : Option String) : jsOr v "" = v.getD "" := by
  cases v with
  | none => rfl
  | some s =>
    by_cases h : s = "" <;> simp [jsOr, h]

theorem commandMatchesSearch_eq_specMatches (search : String) (cc : CustomCommand) :
    commandMatchesSearch (jsToLower search) cc = specMatches search cc := by
  have hiff : ∀ s : String, (decide (strIndexOf (jsToLower s) (jsToLower search) > -1))
      = occursIn (jsLowerData search.data) (jsLowerData s.data) := by
    intro s
    rcases hb : occursIn (jsLowerData search.data) (jsLowerData s.data) with _ | _
    · simp only [decide_eq_false_iff_not]
      rw [strIndexOf_pos_iff]
      show ¬(occursIn (jsLowerData search.data) (jsLowerData s.data) = true)
      simp [hb]
    · simp only [decide_eq_true_eq]
      rw [strIndexOf_pos_iff]
      exact hb
  simp only [commandMatchesSearch, specMatches, jsOr_none_getD]
  rw [← hiff cc.command, ← hiff (cc.title.getD ""), ← hiff (cc.description.getD "")]

/-! ## Lemmas: the CLI parse loop -/

/-- The four wss flags of the CLI. -/
def wssFlagNames : List String :=
  ["--wss-pfx", "--wss-cert", "--wss-key", "--wss-passphrase"]

theorem append_ne_empty (s t : String) (hs : s ≠ "") : s ++ t ≠ "" := by
  intro h
  have hd := congrArg String.data h
  rw [String.data_append] at hd
  exact hs (String.ext_iff.mpr (List.append_eq_nil.mp hd).1)

/-- Unfolding lemma for the empty-argument case of the scan loop. -/
theorem parseArgsGo_nil (port : Int) (help : Bool) (w : WssServerOptions) :
    parseArgsGo [] port help w = .ok (port, help, w) := rfl

/-- Unfolding lemma for one step of the scan loop. -/
theorem parseArgsGo_cons (arg : String) (rest : List String) (port : Int)
    (help : Bool) (w : WssServerOptions) :
    parseArgsGo (arg :: rest) port help w =
      (if arg = "--help" || arg = "-h" then
        parseArgsGo rest port true w
      else if arg = "--port" || arg = "-p" then
        match rest with
        | [] => .error ⟨"--port requires a value", 1⟩
        | v :: rest2 =>
          match jsParseInt v with
          | none => .error ⟨"Invalid port: " ++ v, 1⟩
          | some p => parseArgsGo rest2 p help w
      else if arg = "--wss-pfx" then
        match rest with
        | [] => .error ⟨"--wss-pfx requires a path", 1⟩
        | v :: rest2 => parseArgsGo rest2 port help { w with pathToPfx := some v }
      else if arg = "--wss-cert" then
        match rest with
        | [] => .error ⟨"--wss-cert requires a path", 1⟩
        | v :: rest2 => parseArgsGo rest2 port help { w with pathToCert := some v }
      else if arg = "--wss-key" then
        match rest with
        | [] => .error ⟨"--wss-key requires a path", 1⟩
        | v :: rest2 => parseArgsGo rest2 port help { w with pathToKey := some v }
      else if arg = "--wss-passphrase" then
        match rest with
        | [] => .error ⟨"--wss-passphrase requires a value", 1⟩
        | v :: rest2 => parseArgsGo rest2 port help { w with passphrase := some v }
      else .error ⟨"Unknown argument: " ++ arg, 1⟩) := by
  rw [parseArgsGo.eq_def]

theorem parseArgsGo_port_const (args : List String) (port : Int) (help : Bool)
    (w : WssServerOptions) :
    ∀ (p : Int) (hp : Bool) (w2 : WssServerOptions),
      "--port" ∉ args → "-p" ∉ args →
      parseArgsGo args port help w = .ok (p, hp, w2) → p = port := by
  induction args, port, help, w using parseArgsGo.induct with
  | case1 port help w =>
    intro p hp w2 h1 h2 h
    simp only [parseArgsGo, Except.ok.injEq, Prod.mk.injEq] at h
    obtain ⟨h3, -⟩ := h
    omega
  | case2 arg rest port help w hcond ih =>
    intro p hp w2 h1 h2 h
    rw [parseArgsGo_cons, if_pos hcond] at h
    exact ih p hp w2 (fun hm => h1 (List.mem_cons_of_mem _ hm))
      (fun hm => h2 (List.mem_cons_of_mem _ hm)) h
  | case3 arg port help w hn1 hcond =>
    intro p hp w2 h1 h2 h
    have hc : arg = "--port" ∨ arg = "-p" := by simpa using hcond
    rcases hc with rfl | rfl
    · exact absurd (List.mem_singleton_self _) h1
    · exact absurd (List.mem_singleton_self _) h2
  | case4 arg port help w hn1 hcond v rest2 hparse =>
    intro p hp w2 h1 h2 h
    have hc : arg = "--port" ∨ arg = "-p" := by simpa using hcond
    rcases hc with rfl | rfl
    · exact absurd (List.mem_cons_self _ _) h1
    · exact absurd (List.mem_cons_self _ _) h2
  | case5 arg port help w hn1 hcond v rest2 pv hparse ih =>
    intro p hp w2 h1 h2 h
    have hc : arg = "--port" ∨ arg = "-p" := by simpa using hcond
    rcases hc with rfl | rfl
    · exact absurd (List.mem_cons_self _ _) h1
    · exact absurd (List.mem_cons_self _ _) h2
  | case6 port help w hn1 hn2 =>
    intro p hp w2 h1 h2 h
    simp [parseArgsGo, hn1, hn2] at h
  | case7 port help w v rest2 hn1 hn2 ih =>
    intro p hp w2 h1 h2 h
    simp [parseArgsGo, hn1, hn2] at h
    exact ih p hp w2
      (fun hm => h1 (List.mem_cons_of_mem _ (List.mem_cons_of_mem _ hm)))
      (fun hm => h2 (List.mem_cons_of_mem _ (List.mem_cons_of_mem _ hm))) h
  | case8 port help w hn1 hn2 hn3 =>
    intro p hp w2 h1 h2 h
    simp [parseArgsGo, hn1, hn2, hn3] at h
  | case9 port help w v rest2 hn1 hn2 hn3 ih =>
    intro p hp w2 h1 h2 h
    simp [parseArgsGo, hn1, hn2, hn3] at h
    exact ih p hp w2
      (fun hm => h1 (List.mem_cons_of_mem _ (List.mem_cons_of_mem _ hm)))
      (fun hm => h2 (List.mem_cons_of_mem _ (List.mem_cons_of_mem _ hm))) h
  | case10 port help w hn1 hn2 hn3 hn4 =>
    intro p hp w2 h1 h2 h
    simp [parseArgsGo, hn1, hn2, hn3, hn4] at h
  | case11 port help w v rest2 hn1 hn2 hn3 hn4 ih =>
    intro p hp w2 h1 h2 h
    simp [parseArgsGo, hn1, hn2, hn3, hn4] at h
    exact ih p hp w2
      (fun hm => h1 (List.mem_cons_of_mem _ (List.mem_cons_of_mem _ hm)))
      (fun hm => h2 (List.mem_cons_of_mem _ (List.mem_cons_of_mem _ hm))) h
  | case12 port help w hn1 hn2 hn3 hn4 hn5 =>
    intro p hp w2 h1 h2 h
    simp [parseArgsGo, hn1, hn2, hn3, hn4, hn5] at h
  | case13 port help w v rest2 hn1 hn2 hn3 hn4 hn5 ih =>
    intro p hp w2 h1 h2 h
    simp [parseArgsGo, hn1, hn2, hn3, hn4, hn5] at h
    exact ih p hp w2
      (fun hm => h1 (List.mem_cons_of_mem _ (List.mem_cons_of_mem _ hm)))
      (fun hm => h2 (List.mem_cons_of_mem _ (List.mem_cons_of_mem _ hm))) h
  | case14 arg rest port help w hn1 hn2 hn3 hn4 hn5 hn6 =>
    intro p hp w2 h1 h2 h
    rw [parseArgsGo_cons, if_neg hn1, if_neg hn2, if_neg hn3, if_neg hn4,
      if_neg hn5, if_neg hn6] at h
    simp at h

theorem parseArgsGo_error (args : List String) (port : Int) (help : Bool)
    (w : WssServerOptions) :
    ∀ e : CliError, parseArgsGo args port help w = .error e →
      e.exitCode = 1 ∧ e.message ≠ "" := by
  induction args, port, help, w using parseArgsGo.induct with
  | case1 port help w =>
    intro e h
    simp [parseArgsGo] at h
  | case2 arg rest port help w hcond ih =>
    intro e h
    rw [parseArgsGo_cons, if_pos hcond] at h
    exact ih e h
  | case3 arg port help w hn1 hcond =>
    intro e h
    rw [parseArgsGo_cons, if_neg hn1, if_pos hcond] at h
    injection h with h2
    subst h2
    exact ⟨rfl, by decide⟩
  | case4 arg port help w hn1 hcond v rest2 hparse =>
    intro e h
    rw [parseArgsGo_cons, if_neg hn1, if_pos hcond] at h
    have h2 : (match jsParseInt v with
        | none => (.error ⟨"Invalid port: " ++ v, 1⟩ :
            Except CliError (Int × Bool × WssServerOptions))
        | some p => parseArgsGo rest2 p help w) = .error e := h
    rw [hparse] at h2
    injection h2 with h3
    subst h3
    exact ⟨rfl, append_ne_empty _ _ (by decide)⟩
  | case5 arg port help w hn1 hcond v rest2 pv hparse ih =>
    intro e h
    rw [parseArgsGo_cons, if_neg hn1, if_pos hcond] at h
    have h2 : (match jsParseInt v with
        | none => (.error ⟨"Invalid port: " ++ v, 1⟩ :
            Except CliError (Int × Bool × WssServerOptions))
        | some p => parseArgsGo rest2 p help w) = .error e := h
    rw [hparse] at h2
    exact ih e h2
  | case6 port help w hn1 hn2 =>
    intro e h
    simp [parseArgsGo, hn1, hn2] at h
    obtain ⟨rfl⟩ := h.symm
    exact ⟨rfl, by decide⟩
  | case7 port help w v rest2 hn1 hn2 ih =>
    intro e h
    simp [parseArgsGo, hn1, hn2] at h
    exact ih e h
  | case8 port help w hn1 hn2 hn3 =>
    intro e h
    simp [parseArgsGo, hn1, hn2, hn3] at h
    obtain ⟨rfl⟩ := h.symm
    exact ⟨rfl, by decide⟩
  | case9 port help w v rest2 hn1 hn2 hn3 ih =>
    intro e h
    simp [parseArgsGo, hn1, hn2, hn3] at h
    exact ih e h
  | case10 port help w hn1 hn2 hn3 hn4 =>
    intro e h
    simp [parseArgsGo, hn1, hn2, hn3, hn4] at h
    obtain ⟨rfl⟩ := h.symm
    exact ⟨rfl, by decide⟩
  | case11 port help w v rest2 hn1 hn2 hn3 hn4 ih =>
    intro e h
    simp [parseArgsGo, hn1, hn2, hn3, hn4] at h
    exact ih e h
  | case12 port help w hn1 hn2 hn3 hn4 hn5 =>
    intro e h
    simp [parseArgsGo, hn1, hn2, hn3, hn4, hn5] at h
    obtain ⟨rfl⟩ := h.symm
    exact ⟨rfl, by decide⟩
  | case13 port help w v rest2 hn1 hn2 hn3 hn4 hn5 ih =>
    intro e h
    simp [parseArgsGo, hn1, hn2, hn3, hn4, hn5] at h
    exact ih e h
  | case14 arg rest port help w hn1 hn2 hn3 hn4 hn5 hn6 =>
    intro e h
    rw [parseArgsGo_cons, if_neg hn1, if_neg hn2, if_neg hn3, if_neg hn4,
      if_neg hn5, if_neg hn6] at h
    injection h with h2
    subst h2
    exact ⟨rfl, append_ne_empty _ _ (by decide)⟩

theorem parseArgsGo_wss (args : List String) (port : Int) (help : Bool)
    (w : WssServerOptions) :
    ∀ (p : Int) (hp : Bool) (w2 : WssServerOptions),
      parseArgsGo args port help w = .ok (p, hp, w2) →
      (hasAnyWss w = true ∨ ∃ f, f ∈ wssFlagNames ∧ f ∈ args) →
      hasAnyWss w2 = true := by
  induction args, port, help, w using parseArgsGo.induct with
  | case1 port help w =>
    intro p hp w2 h hd
    simp only [parseArgsGo, Except.ok.injEq, Prod.mk.injEq] at h
    obtain ⟨-, -, rfl⟩ := h
    rcases hd with hw | ⟨f, hf, hmem⟩
    · exact hw
    · simp at hmem
  | case2 arg rest port help w hcond ih =>
    intro p hp w2 h hd
    rw [parseArgsGo_cons, if_pos hcond] at h
    rcases hd with hw | ⟨f, hf, hmem⟩
    · exact ih p hp w2 h (Or.inl hw)
    · rcases List.mem_cons.mp hmem with rfl | hmem2
      · simp only [wssFlagNames, List.mem_cons, List.mem_singleton] at hf
        rcases hf with rfl | rfl | rfl | (rfl | h0)
        · simp at hcond
        · simp at hcond
        · simp at hcond
        · simp at hcond
        · simp at h0
      · exact ih p hp w2 h (Or.inr ⟨f, hf, hmem2⟩)
  | case3 arg port help w hn1 hcond =>
    intro p hp w2 h hd
    have hc : arg = "--port" ∨ arg = "-p" := by simpa using hcond
    rcases hc with rfl | rfl <;> simp [parseArgsGo, hn1] at h
  | case4 arg port help w hn1 hcond v rest2 hparse =>
    intro p hp w2 h hd
    rw [parseArgsGo_cons, if_neg hn1, if_pos hcond] at h
    have h2 : (match jsParseInt v with
        | none => (.error ⟨"Invalid port: " ++ v, 1⟩ :
            Except CliError (Int × Bool × WssServerOptions))
        | some p => parseArgsGo rest2 p help w) = .ok (p, hp, w2) := h
    rw [hparse] at h2
    simp at h2
  | case5 arg port help w hn1 hcond v rest2 pv hparse ih =>
    intro p hp w2 h hd
    rw [parseArgsGo_cons, if_neg hn1, if_pos hcond] at h
    have h2 : (match jsParseInt v with
        | none => (.error ⟨"Invalid port: " ++ v, 1⟩ :
            Except CliError (Int × Bool × WssServerOptions))
        | some p => parseArgsGo rest2 p help w) = .ok (p, hp, w2) := h
    rw [hparse] at h2
    rcases hd with hw | ⟨f, hf, hmem⟩
    · exact ih p hp w2 h2 (Or.inl hw)
    · rcases List.mem_cons.mp hmem with rfl | hmem2
      · have hc : f = "--port" ∨ f = "-p" := by simpa using hcond
        simp only [wssFlagNames, List.mem_cons, List.mem_singleton] at hf
        rcases hf with rfl | rfl | rfl | (rfl | h0) <;> simp_all
      · rcases List.mem_cons.mp hmem2 with rfl | hmem3
        · simp only [wssFlagNames, List.mem_cons, List.mem_singleton] at hf
          rcases hf with rfl | rfl | rfl | (rfl | h0) <;> simp_all [jsParseInt]
        · exact ih p hp w2 h2 (Or.inr ⟨f, hf, hmem3⟩)
  | case6 port help w hn1 hn2 =>
    intro p hp w2 h hd
    simp [parseArgsGo, hn1, hn2] at h
  | case7 port help w v rest2 hn1 hn2 ih =>
    intro p hp w2 h hd
    simp [parseArgsGo, hn1, hn2] at h
    exact ih p hp w2 h (Or.inl (by simp [hasAnyWss]))
  | case8 port help w hn1 hn2 hn3 =>
    intro p hp w2 h hd
    simp [parseArgsGo, hn1, hn2, hn3] at h
  | case9 port help w v rest2 hn1 hn2 hn3 ih =>
    intro p hp w2 h hd
    simp [parseArgsGo, hn1, hn2, hn3] at h
    exact ih p hp w2 h (Or.inl (by simp [hasAnyWss]))
  | case10 port help w hn1 hn2 hn3 hn4 =>
    intro p hp w2 h hd
    simp [parseArgsGo, hn1, hn2, hn3, hn4] at h
  | case11 port help w v rest2 hn1 hn2 hn3 hn4 ih =>
    intro p hp w2 h hd
    simp [parseArgsGo, hn1, hn2, hn3, hn4] at h
    exact ih p hp w2 h (Or.inl (by simp [hasAnyWss]))
  | case12 port help w hn1 hn2 hn3 hn4 hn5 =>
    intro p hp w2 h hd
    simp [parseArgsGo, hn1, hn2, hn3, hn4, hn5] at h
  | case13 port help w v rest2 hn1 hn2 hn3 hn4 hn5 ih =>
    intro p hp w2 h hd
    simp [parseArgsGo, hn1, hn2, hn3, hn4, hn5] at h
    exact ih p hp w2 h (Or.inl (by simp [hasAnyWss]))
  | case14 arg rest port help w hn1 hn2 hn3 hn4 hn5 hn6 =>
    intro p hp w2 h hd
    rw [parseArgsGo_cons, if_neg hn1, if_neg hn2, if_neg hn3, if_neg hn4,
      if_neg hn5, if_neg hn6] at h
    simp at h

/-! ## Lemmas: `parseArgs` and `runStartup` inversion -/

theorem parseArgs_ok_inv (args : List String) (r : ParsedArgs)
    (h : parseArgs args = .ok r) :
    ∃ (hp : Bool) (w2 : WssServerOptions),
      parseArgsGo args 9090 false {} = .ok (r.port, hp, w2) ∧
      r.help = hp ∧ r.wss = (if hasAnyWss w2 then some w2 else none) := by
  unfold parseArgs at h
  rcases hgo : parseArgsGo args 9090 false {} with e | ⟨p, hp, w⟩ <;> rw [hgo] at h
  · simp at h
  · simp only [Except.ok.injEq] at h
    subst h
    exact ⟨hp, w, rfl, rfl, rfl⟩

theorem parseArgs_error_inv (args : List String) (e : CliError)
    (h : parseArgs args = .error e) : e.exitCode = 1 ∧ e.message ≠ "" := by
  unfold parseArgs at h
  rcases hgo : parseArgsGo args 9090 false {} with e2 | ⟨p, hp, w⟩ <;> rw [hgo] at h
  · simp only [Except.error.injEq] at h
    subst h
    exact parseArgsGo_error args 9090 false {} _ hgo
  · simp at h

theorem runStartup_parseFailure (args : List String) (m : String) (c : Int)
    (h : runStartup args = .parseFailure m c) : c = 1 ∧ m ≠ "" := by
  unfold runStartup at h
  rcases hp : parseArgs args with e | r <;> rw [hp] at h
  · simp only [RunResult.parseFailure.injEq] at h
    obtain ⟨rfl, rfl⟩ := h
    exact parseArgs_error_inv args e hp
  · by_cases hh : r.help <;> simp [hh] at h

/-! ## Claims -/

/-- C1 (amended): the CLI exits nonzero exactly on startup failures.  The
`portUnavailable` handler exits 1 with a stderr message naming the port
and is the only lifecycle-event handler that ever exits, so client-level
errors surface only as logs; an argument-parse failure also exits 1 with
a nonempty stderr message; and an error raised during server start (such
as a TLS-material failure) reaches the catch handler, which exits 1. -/
theorem cli_exit_policy :
    (∀ (port q : Int) (hasWss : Bool),
      cliEventHandler port hasWss (.portUnavailable q) =
        { logs := [], errorLogs := ["✗ Port " ++ toString q ++ " is already in use"],
          exitWith := some 1 })
    ∧ (∀ (port : Int) (hasWss : Bool) (e : ServerEvent),
        (cliEventHandler port hasWss e).exitWith ≠ none → ∃ q, e = .portUnavailable q)
    ∧ (∀ (args : List String) (m : String) (c : Int),
        runStartup args = .parseFailure m c → c = 1 ∧ m ≠ "")
    ∧ (∀ m : String, (runCatchHandler m).exitWith = some 1) := by
  refine ⟨fun port q hasWss => rfl, ?_, ?_, fun m => rfl⟩
  · intro port hasWss e he
    cases e
    case portUnavailable q => exact ⟨q, rfl⟩
    all_goals exact absurd rfl he
  · intro args m c h
    exact runStartup_parseFailure args m c h

/-- C1 counterexample to the claim as stated: the CLI also exits nonzero
on an unknown command-line argument, before any server exists, so no
bind or TLS failure is involved. -/
theorem cli_exit_policy_counterexample :
    runStartup ["--unknown-flag"] = .parseFailure "Unknown argument: --unknown-flag" 1 := rfl

/-- C1 witness: the theorem instantiated at a concrete port-unavailable
event and a concrete failing argument list. -/
theorem cli_exit_policy_witness :
    (∃ q : Int, ServerEvent.portUnavailable (7 : Int) = ServerEvent.portUnavailable q)
    ∧ ((1 : Int) = 1 ∧ "Unknown argument: --oops" ≠ "") :=
  ⟨cli_exit_policy.2.1 9090 false (ServerEvent.portUnavailable 7) (by decide),
   cli_exit_policy.2.2.1 ["--oops"] "Unknown argument: --oops" 1 rfl⟩

/-- C2 (amended): for every argument list the CLI accepts, the forwarded
TLS configuration is either absent or carries at least one of the four
wss fields, and whenever a wss flag appears anywhere in the argument list
a configuration is forwarded; the three documented shapes are not
enforced — see the counterexample, where a certificate path is forwarded
without a key path. -/
theorem tls_forwarding (args : List String) (r : ParsedArgs)
    (h : parseArgs args = .ok r) :
    (∀ w, r.wss = some w → hasAnyWss w = true)
    ∧ (∀ f, f ∈ wssFlagNames → f ∈ args →
        ∃ w, r.wss = some w ∧ hasAnyWss w = true) := by
  obtain ⟨hp, w2, hgo, hhelp, hwss⟩ := parseArgs_ok_inv args r h
  constructor
  · intro w hw
    rw [hwss] at hw
    by_cases hany : hasAnyWss w2
    · rw [if_pos hany] at hw
      obtain rfl := Option.some.injEq _ _ ▸ hw
      simpa using hany
    · rw [if_neg hany] at hw
      exact absurd hw (by simp)
  · intro f hf hmem
    have hany : hasAnyWss w2 = true :=
      parseArgsGo_wss args 9090 false {} r.port hp w2 hgo (Or.inr ⟨f, hf, hmem⟩)
    exact ⟨w2, by rw [hwss, if_pos hany], hany⟩

/-- C2 counterexample to the claim as stated: `--wss-cert` alone is
accepted and forwards a certificate path with no key path, which is none
of the three documented TLS shapes. -/
theorem tls_forwarding_counterexample :
    parseArgs ["--wss-cert", "c.pem"] =
      .ok { port := 9090, wss := some { pathToCert := some "c.pem" }, help := false }
    ∧ specTlsShape (some { pathToCert := some "c.pem" }) = false :=
  ⟨rfl, rfl⟩

/-- C2 witness: the theorem instantiated at `--wss-pfx p.pfx`. -/
theorem tls_forwarding_witness :
    ∃ w, (({ port := 9090, wss := some { pathToPfx := some "p.pfx" }, help := false } :
      ParsedArgs)).wss = some w ∧ hasAnyWss w = true :=
  (tls_forwarding ["--wss-pfx", "p.pfx"]
      { port := 9090, wss := some { pathToPfx := some "p.pfx" }, help := false } rfl).2
    "--wss-pfx" (by decide) (by decide)

/-- C3: when no port flag appears in the argument list and parsing
succeeds, the parsed port is the default 9090, and (when the help flag is
not set) the server is started on port 9090. -/
theorem default_port_9090 (args : List String) (r : ParsedArgs)
    (h : parseArgs args = .ok r) (h1 : "--port" ∉ args) (h2 : "-p" ∉ args) :
    r.port = 9090 ∧
      (r.help = false → runStartup args = .serverStarted ⟨9090, r.wss⟩) := by
  obtain ⟨hp, w2, hgo, hhelp, hwss⟩ := parseArgs_ok_inv args r h
  have hport : r.port = 9090 :=
    parseArgsGo_port_const args 9090 false {} r.port hp w2 h1 h2 hgo
  refine ⟨hport, fun hh => ?_⟩
  unfold runStartup
  rw [h]
  simp [hh, hport]

/-- C3 witness: the theorem instantiated at the empty argument list. -/
theorem default_port_9090_witness :
    (⟨9090, none, false⟩ : ParsedArgs).port = 9090 ∧
      ((⟨9090, none, false⟩ : ParsedArgs).help = false →
        runStartup [] = .serverStarted ⟨9090, (⟨9090, none, false⟩ : ParsedArgs).wss⟩) :=
  default_port_9090 [] ⟨9090, none, false⟩ rfl (by decide) (by decide)

/-- C4: an `UPDATE_ARG` action for `(n, v)` yields a mapping in which `n`
reads as `v` and every other name reads its previous value; the input
state is untouched, since `objSet` builds a new list (the embedding is
pure, matching the immer copy-on-write semantics). -/
theorem updateArg_copy_on_write (state : List (String × String)) (n v : String) :
    objGet (customCommandItemReducer state ⟨"UPDATE_ARG", ⟨n, v⟩⟩) n = some v
    ∧ ∀ m, m ≠ n →
        objGet (customCommandItemReducer state ⟨"UPDATE_ARG", ⟨n, v⟩⟩) m = objGet state m := by
  constructor
  · simp [customCommandItemReducer, objGet_objSet_self]
  · intro m hm
    simp [customCommandItemReducer, objGet_objSet_other state n v m hm]

/-- C4 witness: the theorem instantiated at a concrete two-entry map. -/
theorem updateArg_copy_on_write_witness :
    objGet (customCommandItemReducer [("a", "1"), ("b", "2")]
      ⟨"UPDATE_ARG", ⟨"a", "x"⟩⟩) "a" = some "x"
    ∧ objGet (customCommandItemReducer [("a", "1"), ("b", "2")]
        ⟨"UPDATE_ARG", ⟨"a", "x"⟩⟩) "b" = objGet [("a", "1"), ("b", "2")] "b" :=
  ⟨(updateArg_copy_on_write [("a", "1"), ("b", "2")] "a" "x").1,
   (updateArg_copy_on_write [("a", "1"), ("b", "2")] "a" "x").2 "b" (by decide)⟩

/-- C5: the initial invocation argument map binds exactly the declared
argument names, each to the empty string; absent (falsy) argument lists
give the empty map. -/
theorem initial_args_empty_string (l : List Arg) (n : String) :
    objGet (initArgMap (some l)) n = (if n ∈ l.map Arg.name then some "" else none)
    ∧ initArgMap none = [] ∧ initArgMap (some []) = [] := by
  refine ⟨?_, rfl, rfl⟩
  show objGet (l.foldl (fun m a => objSet m a.name "") []) n = _
  rw [initArgMap_foldl]
  split <;> rfl

/-- C6: listed custom commands are distinguished by the `(clientId, id)`
pair: render keys differ whenever the pairs differ (with the registry's
numeric ids), and in particular two commands sharing a command name but
declared by different clients get distinct render keys. -/
theorem custom_command_render_keys :
    (∀ c1 c2 : CustomCommand, (c1.clientId, c1.id) ≠ (c2.clientId, c2.id) →
      renderKey c1 ≠ renderKey c2)
    ∧ (∀ c1 c2 : CustomCommand, c1.command = c2.command → c1.clientId ≠ c2.clientId →
      renderKey c1 ≠ renderKey c2) := by
  have key : ∀ c1 c2 : CustomCommand, (c1.clientId, c1.id) ≠ (c2.clientId, c2.id) →
      renderKey c1 ≠ renderKey c2 := by
    intro c1 c2 hne heq
    obtain ⟨hc, hid⟩ := renderKey_inj c1 c2 heq
    exact hne (by rw [hc, hid])
  exact ⟨key, fun c1 c2 hcmd hcl => key c1 c2 (fun hp => hcl (congrArg Prod.fst hp))⟩

/-- C6 witness: two commands named `reset` from different clients keep
distinct render keys. -/
theorem custom_command_render_keys_witness :
    renderKey { clientId := "app-1", id := 3, command := "reset" }
      ≠ renderKey { clientId := "app-2", id := 3, command := "reset" } :=
  custom_command_render_keys.2 { clientId := "app-1", id := 3, command := "reset" }
    { clientId := "app-2", id := 3, command := "reset" } rfl (by decide)

/-- C7: the CLI registers a handler for each of the seven lifecycle
events of the spec's event set (under the implementation names), each
exactly once, and registers nothing outside that set. -/
theorem lifecycle_events_consumed :
    specLifecycleEventNames ⊆ cliRegisteredEvents
    ∧ cliRegisteredEvents ⊆ specLifecycleEventNames
    ∧ cliRegisteredEvents.Nodup :=
  ⟨by intro a ha; exact ha, by intro a ha; exact ha, by decide⟩

/-- C8: the filtered custom-command list is the order-preserving
subsequence of commands whose name, title (empty when absent) or
description (empty when absent) contains the search string
case-insensitively; the empty search string leaves the list unchanged. -/
theorem search_filter_spec (search : String) (l : List CustomCommand) :
    filteredCustomCommands search l =
      (if search = "" then l else l.filter (specMatches search)) := by
  rw [filteredCustomCommands]
  by_cases hs : search = ""
  · simp [hs]
  · simp only [hs, if_false, ne_eq, not_false_iff, if_true]
    exact List.filter_congr (fun cc _ => commandMatchesSearch_eq_specMatches search cc)

/-- C9 (amended): when parsing succeeds with the help flag set — that is,
`--help` or `-h` was consumed as a flag rather than as a preceding
option's value — the CLI prints usage and exits 0 without constructing a
server. -/
theorem help_flag_exits_zero (args : List String) (r : ParsedArgs)
    (h : parseArgs args = .ok r) (hh : r.help = true) :
    runStartup args = .helpShown 0 := by
  unfold runStartup
  rw [h]
  simp [hh]

/-- C9 counterexample to the claim as stated: `--wss-pfx --help` parses
successfully and contains `--help`, yet `--help` is consumed as the pfx
path and a server is constructed and started. -/
theorem help_flag_counterexample :
    "--help" ∈ ["--wss-pfx", "--help"]
    ∧ runStartup ["--wss-pfx", "--help"] =
        .serverStarted { port := 9090, wss := some { pathToPfx := some "--help" } } :=
  ⟨by decide, rfl⟩

/-- C9 witness: the theorem instantiated at `-h`. -/
theorem help_flag_exits_zero_witness : runStartup ["-h"] = .helpShown 0 :=
  help_flag_exits_zero ["-h"] ⟨9090, none, true⟩ rfl rfl

/-- C10: the accumulator reducer is the identity on every action whose
type is not `UPDATE_ARG`. -/
theorem reducer_identity_on_other_actions (state : List (String × String)) (a : Action)
    (h : a.actionType ≠ "UPDATE_ARG") : customCommandItemReducer state a = state := by
  rw [customCommandItemReducer, if_neg h]

/-- C10 witness: the theorem instantiated at a concrete foreign action. -/
theorem reducer_identity_on_other_actions_witness :
    customCommandItemReducer [("a", "1")] ⟨"RESET_FORM", ⟨"a", "z"⟩⟩ = [("a", "1")] :=
  reducer_identity_on_other_actions [("a", "1")] ⟨"RESET_FORM", ⟨"a", "z"⟩⟩ (by decide)

end Reactotron
